import Mathlib

/-!
Verification of the Argus heat-index pipeline.

Shallow embedding of the repository's core code:
* `src/scripts/calculate_heat_indices.py` — the four heat-stress index
  functions and the per-row batch processor, modelled over the reals
  (Python floats are idealised as exact real arithmetic, and Python's
  `round(x, n)` half-to-even decimal rounding is modelled exactly).
* `src/scripts/download_era5_chi.py` — the temporal aggregator
  `aggregate_data`, modelled over the rationals (its arithmetic is sums,
  counts and one division), with the bucket keys as the very strftime
  strings the code builds, and the reader's strptime date format as a
  string parser.
* `src/data/heat_and_health/preprocess_to_json.py` — the encoding
  fallback reader and the decimal-comma normalizer.
-/

set_option linter.unusedVariables false

open Classical

open Real (pi)

/-- Python `round` to integer: round half to even (banker's rounding),
as used by `round(x, n)` in `calculate_heat_indices.py`. -/
noncomputable def pyRoundInt (x : ℝ) : ℤ :=
  if x - ⌊x⌋ < 1/2 then ⌊x⌋
  else if (1:ℝ)/2 < x - ⌊x⌋ then ⌊x⌋ + 1
  else if 2 ∣ ⌊x⌋ then ⌊x⌋ else ⌊x⌋ + 1

/-- Python `round(x, 2)`. -/
noncomputable def round2R (x : ℝ) : ℝ := (pyRoundInt (x * 100) : ℝ) / 100

/-- Python `round(x, 1)`. -/
noncomputable def round1R (x : ℝ) : ℝ := (pyRoundInt (x * 10) : ℝ) / 10

/-- Rothfusz regression polynomial from `calculate_heat_index`
(`src/scripts/calculate_heat_indices.py`, lines 61-69). -/
def rothfusz (temp_f humidity_percent : ℝ) : ℝ :=
  -42.379 +
    2.04901523 * temp_f +
    10.14333127 * humidity_percent -
    0.22475541 * temp_f * humidity_percent -
    6.83783e-3 * temp_f * temp_f -
    5.481717e-2 * humidity_percent * humidity_percent +
    1.22874e-3 * temp_f * temp_f * humidity_percent +
    8.5282e-4 * temp_f * humidity_percent * humidity_percent -
    1.99e-6 * temp_f * temp_f * humidity_percent * humidity_percent

/-- `calculate_heat_index` from `src/scripts/calculate_heat_indices.py`:
below 80 °F or below 40 % humidity the input temperature is returned
unchanged, otherwise the Rothfusz regression is evaluated and rounded. -/
noncomputable def calculate_heat_index (temp_f humidity_percent : ℝ) : ℝ :=
  if temp_f < 80 ∨ humidity_percent < 40 then temp_f
  else round2R (rothfusz temp_f humidity_percent)

/-- `calculate_apparent_temperature` from `src/scripts/calculate_heat_indices.py`. -/
noncomputable def calculate_apparent_temperature (temp_c humidity_percent : ℝ) : ℝ :=
  let e := humidity_percent / 100.0 * 6.105 * Real.exp (17.27 * temp_c / (237.7 + temp_c))
  let atv := temp_c + 0.33 * e - 0.70 * (temp_c * 0.1) - 4.0
  round2R atv

/-- `calculate_wet_bulb_temperature` from `src/scripts/calculate_heat_indices.py`
(Stull 2011 closed form; the vapor-pressure lets are computed but unused,
as in the source, and the pressure argument only feeds them). -/
noncomputable def calculate_wet_bulb_temperature (temp_c humidity_percent : ℝ)
    (pressure_hpa : ℝ := 1013.25) : ℝ :=
  let e_sat := 6.112 * Real.exp (17.67 * temp_c / (temp_c + 243.5))
  let e := humidity_percent / 100.0 * e_sat
  let twb := temp_c * Real.arctan (0.151977 * Real.sqrt (humidity_percent + 8.313659)) +
      Real.arctan (temp_c + humidity_percent) -
      Real.arctan (humidity_percent - 1.676331) +
      0.00391838 * humidity_percent ^ (1.5 : ℝ) * Real.arctan (0.023101 * humidity_percent) -
      4.686035
  round2R twb

/-- `calculate_utci_approximation` from `src/scripts/calculate_heat_indices.py`. -/
noncomputable def calculate_utci_approximation (temp_c humidity_percent : ℝ)
    (wind_speed_ms : ℝ := 2.0) (solar_rad : ℝ := 0) : ℝ :=
  let utci0 := temp_c
  let utci1 := if temp_c > 20 then utci0 + (humidity_percent - 50) * 0.1 else utci0
  let utci2 := if temp_c > 25 then utci1 + (-wind_speed_ms * 0.5) else utci1
  let utci3 := utci2 + solar_rad * 0.01
  round2R utci3

/-- The three additive UTCI corrections, as indicator terms. -/
noncomputable def utciCorrections (temp_c humidity_percent wind_speed_ms solar_rad : ℝ) :
    List ℝ :=
  [if temp_c > 20 then (humidity_percent - 50) * 0.1 else 0,
   if temp_c > 25 then -wind_speed_ms * 0.5 else 0,
   solar_rad * 0.01]

/-- Python `row.get(k)` on a `csv.DictReader` row. -/
def rowGet (row : List (String × String)) (k : String) : Option String :=
  (row.find? (fun p => p.1 == k)).map (fun p => p.2)

/-- One output row of `process_temperature_data`
(`src/scripts/calculate_heat_indices.py`, lines 187-195). -/
structure IndexRecord where
  date : String
  temperature_c : ℝ
  humidity_percent : ℝ
  apparent_temperature : ℝ
  heat_index : ℝ
  wet_bulb_temperature : ℝ
  utci_approximation : ℝ

/-- `float(row.get('temperature', row.get('avg_temperature', 20)))`:
the numeric conversion of the temperature text when one of the two keys is
present (`parse` models Python `float` on a string; `none` is the
`ValueError` case), else the integer default 20, whose conversion cannot
fail. -/
def tempVal (parse : String → Option ℝ) (row : List (String × String)) : Option ℝ :=
  match rowGet row "temperature" with
  | some s => parse s
  | none =>
    match rowGet row "avg_temperature" with
    | some s => parse s
    | none => some 20

/-- `float(row.get('humidity', row.get('humidity_percent', 65)))`. -/
def humVal (parse : String → Option ℝ) (row : List (String × String)) : Option ℝ :=
  match rowGet row "humidity" with
  | some s => parse s
  | none =>
    match rowGet row "humidity_percent" with
    | some s => parse s
    | none => some 65

/-- Body of the per-row loop of `process_temperature_data`
(lines 174-198): a failed numeric conversion (`ValueError`) skips the
row, otherwise all four indices are computed and a record is emitted. -/
noncomputable def process_row (parse : String → Option ℝ)
    (row : List (String × String)) : Option IndexRecord :=
  match tempVal parse row, humVal parse row with
  | some temp_c, some humidity => some {
      date := (rowGet row "date").getD "",
      temperature_c := round2R temp_c,
      humidity_percent := round1R humidity,
      apparent_temperature := calculate_apparent_temperature temp_c humidity,
      heat_index := round2R ((calculate_heat_index (temp_c * 9 / 5 + 32) humidity - 32) * 5 / 9),
      wet_bulb_temperature := calculate_wet_bulb_temperature temp_c humidity,
      utci_approximation := calculate_utci_approximation temp_c humidity }
  | _, _ => none

/-- The batch loop of `process_temperature_data`: rows whose conversion
fails are skipped (`continue`), the rest produce records in order. -/
noncomputable def process_temperature_data (parse : String → Option ℝ)
    (rows : List (List (String × String))) : List IndexRecord :=
  rows.filterMap (process_row parse)

/-- Naive timestamp as parsed by `datetime.strptime` in `aggregate_data`:
six calendar fields, no timezone. -/
structure DateTime where
  year : Nat
  month : Nat
  day : Nat
  hour : Nat
  minute : Nat
  second : Nat
deriving DecidableEq

/-- Zero-padding of a numeric strftime field to width `w`. -/
def padZero (w n : Nat) : String :=
  let s := toString n
  String.mk (List.replicate (w - s.length) '0') ++ s

/-- The bucket-key derivation of `aggregate_data`
(`src/scripts/download_era5_chi.py`, lines 183-192): the strftime format
string of each granularity, with the final `else` falling back to the
daily format. The key is built from the timestamp's own fields only (the
naive datetime): no timezone conversion exists anywhere in the code. -/
def strftimeKey (aggregation : String) (date : DateTime) : String :=
  if aggregation = "hourly" then
    padZero 4 date.year ++ "-" ++ padZero 2 date.month ++ "-" ++ padZero 2 date.day ++
      " " ++ padZero 2 date.hour ++ ":00:00"
  else if aggregation = "daily" then
    padZero 4 date.year ++ "-" ++ padZero 2 date.month ++ "-" ++ padZero 2 date.day
  else if aggregation = "monthly" then
    padZero 4 date.year ++ "-" ++ padZero 2 date.month ++ "-01"
  else if aggregation = "yearly" then
    padZero 4 date.year ++ "-01-01"
  else
    padZero 4 date.year ++ "-" ++ padZero 2 date.month ++ "-" ++ padZero 2 date.day

/-- Canonical `%Y-%m-%d` rendering of a timestamp's calendar day. -/
def renderDate (d : DateTime) : String :=
  padZero 4 d.year ++ "-" ++ padZero 2 d.month ++ "-" ++ padZero 2 d.day

/-- Canonical `%Y-%m-%d %H:%M:%S` rendering of a timestamp — the exact
format `aggregate_data` parses its input dates with. -/
def renderFull (d : DateTime) : String :=
  renderDate d ++ " " ++ padZero 2 d.hour ++ ":" ++ padZero 2 d.minute ++ ":" ++
    padZero 2 d.second

/-- One parsed input row of `aggregate_data` (the dict built at
lines 172-177: date, value, index). -/
structure AggRec where
  date : DateTime
  value : ℚ
  index : String
deriving DecidableEq

/-- The dict update of the aggregation loop
(`src/scripts/download_era5_chi.py`, lines 194-196): the first row seen
for a key creates the entry `{values: [], index: row['index']}` and every
row with the key appends its value. The insertion-ordered dict is an
association list. -/
def bucketInsert : List (String × List ℚ × String) → String → ℚ → String →
    List (String × List ℚ × String)
  | [], k, v, idx => [(k, [v], idx)]
  | (k', vs, i') :: rest, k, v, idx =>
    if k' = k then (k', vs ++ [v], i') :: rest
    else (k', vs, i') :: bucketInsert rest k v idx

/-- The aggregation loop of `aggregate_data` over already-parsed rows. -/
def groupRows (aggregation : String) (rows : List AggRec) :
    List (String × List ℚ × String) :=
  rows.foldl (fun acc r => bucketInsert acc (strftimeKey aggregation r.date) r.value r.index) []

/-- Insertion step of sorting the bucket keys (`sorted(aggregated.keys())`). -/
def insertByKey (x : String × ℚ × String) : List (String × ℚ × String) →
    List (String × ℚ × String)
  | [] => [x]
  | y :: ys => if x.1 ≤ y.1 then x :: y :: ys else y :: insertByKey x ys

/-- Sort the output rows ascending by bucket key. -/
def sortByKey (l : List (String × ℚ × String)) : List (String × ℚ × String) :=
  l.foldr insertByKey []

/-- `sum(values) / len(values)` of one bucket. -/
def bucketAvg (vs : List ℚ) : ℚ := vs.sum / (vs.length : ℚ)

/-- `aggregate_data` after its reading loop: group the parsed rows by
bucket key, then emit `(key, average, index)` rows sorted ascending by
key (lines 180-206 of `src/scripts/download_era5_chi.py`). -/
def aggregate (aggregation : String) (rows : List AggRec) :
    List (String × ℚ × String) :=
  sortByKey ((groupRows aggregation rows).map (fun e => (e.1, bucketAvg e.2.1, e.2.2)))

/-- Split a character list at every occurrence of a separator, as Python
`str.split(sep)` does for a one-character separator. -/
def splitOnChar (sep : Char) : List Char → List (List Char)
  | [] => [[]]
  | c :: rest =>
    if c = sep then [] :: splitOnChar sep rest
    else
      match splitOnChar sep rest with
      | [] => [[c]]
      | w :: ws => (c :: w) :: ws

/-- Value of an ASCII digit character. -/
def digitVal (c : Char) : Option Nat :=
  if c = '0' then some 0 else if c = '1' then some 1 else if c = '2' then some 2
  else if c = '3' then some 3 else if c = '4' then some 4 else if c = '5' then some 5
  else if c = '6' then some 6 else if c = '7' then some 7 else if c = '8' then some 8
  else if c = '9' then some 9 else none

def digitsToNatAux : Nat → List Char → Option Nat
  | acc, [] => some acc
  | acc, c :: rest =>
    match digitVal c with
    | some d => digitsToNatAux (acc * 10 + d) rest
    | none => none

/-- Decimal value of a non-empty all-digit character list. -/
def digitsToNat : List Char → Option Nat
  | [] => none
  | l => digitsToNatAux 0 l

/-- `datetime.strptime(s, '%Y-%m-%d %H:%M:%S')` — the reading loop's date
parser (line 174): `none` models the `ValueError` a non-matching string
raises. -/
def strptimeFull (s : String) : Option DateTime :=
  match splitOnChar ' ' s.data with
  | [ds, ts] =>
    match splitOnChar '-' ds, splitOnChar ':' ts with
    | [ys, ms, dds], [hs, ns, ss] => do
      let y ← digitsToNat ys
      let mo ← digitsToNat ms
      let dd ← digitsToNat dds
      let h ← digitsToNat hs
      let mi ← digitsToNat ns
      let sec ← digitsToNat ss
      if 1 ≤ mo ∧ mo ≤ 12 ∧ 1 ≤ dd ∧ dd ≤ 31 ∧ h ≤ 23 ∧ mi ≤ 59 ∧ sec ≤ 59 then
        some ⟨y, mo, dd, h, mi, sec⟩
      else none
    | _, _ => none
  | _ => none

/-- Numeric conversion of a plain decimal literal (optional sign, integer
part, optional fractional part) to an exact rational — the behaviour of
Python `float` and of pandas `to_numeric` on the decimal strings this
pipeline handles. -/
def parseDecimal (s : String) : Option ℚ :=
  let p : Bool × List Char :=
    match s.data with
    | '-' :: rest => (true, rest)
    | l => (false, l)
  match splitOnChar '.' p.2 with
  | [a] => (digitsToNat a).map (fun n => if p.1 then -(n : ℚ) else (n : ℚ))
  | [a, b] =>
    match digitsToNat a, digitsToNat b with
    | some na, some nb =>
      let q : ℚ := (na : ℚ) + (nb : ℚ) / ((10 : ℚ) ^ b.length)
      some (if p.1 then -q else q)
    | _, _ => none
  | _ => none

/-- `aggregate_data` including its reading loop: every row's date is
parsed with `'%Y-%m-%d %H:%M:%S'` and its value with `float` before any
aggregation; a failure raises (modelled as `none`). -/
def aggregate_data (aggregation : String) (rows : List (String × String × String)) :
    Option (List (String × ℚ × String)) :=
  (rows.mapM (fun (r : String × String × String) => do
    let d ← strptimeFull r.1
    let v ← parseDecimal r.2.1
    pure (⟨d, v, r.2.2⟩ : AggRec))).map (aggregate aggregation)

/-- Association-list lookup in the insertion-ordered bucket dict. -/
def findBucket : List (String × List ℚ × String) → String → Option (List ℚ × String)
  | [], _ => none
  | (k', vs, i) :: rest, k => if k' = k then some (vs, i) else findBucket rest k

/-- `PREFERRED_ENCODINGS` from
`src/data/heat_and_health/preprocess_to_json.py`. -/
def PREFERRED_ENCODINGS : List String := ["utf-8", "latin-1", "cp1252"]

/-- The encoding loop of `read_csv_with_fallbacks`: try each encoding in
order, remembering the last `UnicodeDecodeError`; when the list is
exhausted, re-raise the remembered error, or (only if no error was ever
recorded, i.e. the list was empty) fall back to a default-encoding read. -/
def tryEncodings {α ε : Type} (attempt : String → Except ε α)
    (attemptDefault : Unit → Except ε α) :
    List String → Option ε → Except ε α
  | [], none => attemptDefault ()
  | [], some e => .error e
  | enc :: rest, _ =>
    match attempt enc with
    | .ok v => .ok v
    | .error e => tryEncodings attempt attemptDefault rest (some e)

/-- `read_csv_with_fallbacks` from
`src/data/heat_and_health/preprocess_to_json.py`: `attempt enc` models
`pd.read_csv(csv_path, encoding=enc)` with `Except.error` as a
`UnicodeDecodeError`, and `attemptDefault` the final bare
`pd.read_csv(csv_path)`. -/
def read_csv_with_fallbacks {α ε : Type} (attempt : String → Except ε α)
    (attemptDefault : Unit → Except ε α) : Except ε α :=
  tryEncodings attempt attemptDefault PREFERRED_ENCODINGS none

/-- `df[col].str.replace(",", ".")` on a cell, from
`normalize_decimal_commas` in
`src/data/heat_and_health/preprocess_to_json.py`. -/
def replaceCommas (s : String) : String :=
  String.mk (s.data.map (fun c => if c = ',' then '.' else c))

/-- The per-cell effect of `normalize_decimal_commas`: comma→dot
replacement first, then the literal strings `"nan"` and `""` map to
missing, then numeric coercion (`errors="coerce"`, so an unparsable cell
is also missing). -/
def normalize_cell (toNum : String → Option ℚ) (s : String) : Option ℚ :=
  let s1 := replaceCommas s
  if s1 = "nan" ∨ s1 = "" then none else toNum s1

/-- `normalize_decimal_commas` on one flagged column, as the source's
chain of whole-column operations: `astype(str)` (cells are strings here),
`.str.replace(",", ".")`, `.replace({"nan": None, "": None})`, then
`pd.to_numeric(..., errors="coerce")`. -/
def normalize_decimal_commas (toNum : String → Option ℚ) (col : List String) :
    List (Option ℚ) :=
  ((col.map replaceCommas).map
      (fun s => if s = "nan" ∨ s = "" then none else some s)).map
    (fun o => o.bind toNum)

theorem pyRoundInt_bounds (x : ℝ) :
    x - 1/2 ≤ (pyRoundInt x : ℝ) ∧ (pyRoundInt x : ℝ) ≤ x + 1/2 := by
  have hfl : (⌊x⌋ : ℝ) ≤ x := Int.floor_le x
  have hfu : x < (⌊x⌋ : ℝ) + 1 := Int.lt_floor_add_one x
  unfold pyRoundInt
  split
  · constructor <;> [linarith; linarith]
  · split
    · push_cast; constructor <;> [linarith; linarith]
    · rename_i h1 h2
      have h3 : x - (⌊x⌋ : ℝ) = 1/2 := le_antisymm (not_lt.mp h2) (not_lt.mp h1)
      split <;> (push_cast; constructor <;> linarith)

theorem round2R_bounds (x : ℝ) : x - 1/200 ≤ round2R x ∧ round2R x ≤ x + 1/200 := by
  have h := pyRoundInt_bounds (x * 100)
  unfold round2R
  constructor <;> [linarith [h.1]; linarith [h.2]]

theorem heat_index_low (temp_f humidity_percent : ℝ)
    (h : temp_f < 80 ∨ humidity_percent < 40) :
    calculate_heat_index temp_f humidity_percent = temp_f := by
  unfold calculate_heat_index
  exact if_pos h

/-- C1: the Heat Index is the identity pass-through whenever
`T_F < 80` or `RH < 40` (a defined result, not an error), and evaluates
the Rothfusz regression exactly when `T_F ≥ 80` and `RH ≥ 40`; in
particular it returns the input unchanged on every listed grid point
with `T_F < 80` or `RH < 40`. -/
theorem heat_index_pass_through_domain (temp_f humidity_percent : ℝ) :
    (temp_f < 80 ∨ humidity_percent < 40 →
      calculate_heat_index temp_f humidity_percent = temp_f) ∧
    (80 ≤ temp_f → 40 ≤ humidity_percent →
      calculate_heat_index temp_f humidity_percent =
        round2R (rothfusz temp_f humidity_percent)) ∧
    (∀ t ∈ [(-10 : ℝ), 79, 80, 100], ∀ rh ∈ [(0 : ℝ), 39, 40, 90],
      t < 80 ∨ rh < 40 → calculate_heat_index t rh = t) := by
  refine ⟨heat_index_low _ _, fun h1 h2 => ?_, fun t _ rh _ h => heat_index_low t rh h⟩
  unfold calculate_heat_index
  rw [if_neg (not_or.mpr ⟨not_lt.mpr h1, not_lt.mpr h2⟩)]

theorem heat_index_pass_through_domain_check :
    calculate_heat_index (-10) 0 = -10 ∧ calculate_heat_index 79 90 = 79 ∧
    calculate_heat_index 100 39 = 100 ∧
    calculate_heat_index 100 90 = round2R (rothfusz 100 90) :=
  ⟨(heat_index_pass_through_domain (-10) 0).1 (Or.inl (by norm_num)),
   (heat_index_pass_through_domain 79 90).1 (Or.inl (by norm_num)),
   (heat_index_pass_through_domain 100 39).1 (Or.inr (by norm_num)),
   (heat_index_pass_through_domain 100 90).2.1 (by norm_num) (by norm_num)⟩

/-- C5: the UTCI approximation is the input temperature plus three purely
additive corrections — `(RH-50)*0.1` exactly when `T > 20`, `-wind*0.5`
exactly when `T > 25`, and `solar*0.01` unconditionally — and any
reordering of the corrections yields the same result (up to the shared
final 2-decimal rounding). -/
theorem utci_additive_corrections (t rh w s : ℝ) :
    calculate_utci_approximation t rh w s =
      round2R (t + (utciCorrections t rh w s).sum) ∧
    ∀ l : List ℝ, l.Perm (utciCorrections t rh w s) →
      round2R (t + l.sum) = calculate_utci_approximation t rh w s := by
  have h1 : calculate_utci_approximation t rh w s =
      round2R (t + (utciCorrections t rh w s).sum) := by
    unfold calculate_utci_approximation utciCorrections
    by_cases h1 : t > 20 <;> by_cases h2 : t > 25 <;>
      simp only [h1, h2, if_true, if_false, List.sum_cons, List.sum_nil] <;>
      (congr 1; ring)
  exact ⟨h1, fun l hl => by rw [hl.sum_eq, h1]⟩

theorem utci_additive_corrections_check :
    round2R (30 + ((utciCorrections 30 80 3 100).reverse).sum) =
      calculate_utci_approximation 30 80 3 100 :=
  (utci_additive_corrections 30 80 3 100).2 _ (List.reverse_perm _)

/-- C9: a row with neither a `temperature` nor an `avg_temperature` key is
not skipped: the integer default 20 (and humidity default 65 when absent)
feeds all four index computations and a record is emitted; the row is
skipped only when a present temperature or humidity text fails numeric
conversion. -/
theorem default_temperature_row_not_skipped (parse : String → Option ℝ)
    (row : List (String × String))
    (hT : rowGet row "temperature" = none)
    (hA : rowGet row "avg_temperature" = none) :
    (∀ h : ℝ, humVal parse row = some h →
      ∃ rec, process_row parse row = some rec ∧
        rec.temperature_c = round2R 20 ∧
        rec.humidity_percent = round1R h ∧
        rec.apparent_temperature = calculate_apparent_temperature 20 h ∧
        rec.heat_index =
          round2R ((calculate_heat_index (20 * 9 / 5 + 32) h - 32) * 5 / 9) ∧
        rec.wet_bulb_temperature = calculate_wet_bulb_temperature 20 h ∧
        rec.utci_approximation = calculate_utci_approximation 20 h ∧
        process_temperature_data parse [row] = [rec]) ∧
    (humVal parse row = none →
      process_row parse row = none ∧ process_temperature_data parse [row] = []) := by
  have htv : tempVal parse row = some 20 := by
    unfold tempVal; rw [hT, hA]
  constructor
  · intro h hh
    have hpr : process_row parse row = some {
        date := (rowGet row "date").getD "",
        temperature_c := round2R 20,
        humidity_percent := round1R h,
        apparent_temperature := calculate_apparent_temperature 20 h,
        heat_index := round2R ((calculate_heat_index (20 * 9 / 5 + 32) h - 32) * 5 / 9),
        wet_bulb_temperature := calculate_wet_bulb_temperature 20 h,
        utci_approximation := calculate_utci_approximation 20 h } := by
      unfold process_row; rw [htv, hh]
    refine ⟨_, hpr, rfl, rfl, rfl, rfl, rfl, rfl, ?_⟩
    unfold process_temperature_data
    rw [List.filterMap_cons, hpr, List.filterMap_nil]
  · intro hh
    have hpr : process_row parse row = none := by
      unfold process_row; rw [htv, hh]
    refine ⟨hpr, ?_⟩
    unfold process_temperature_data
    rw [List.filterMap_cons, hpr, List.filterMap_nil]

theorem default_temperature_row_not_skipped_check :
    ∃ rec, process_row (fun _ => none) [("date", "x")] = some rec ∧
      rec.temperature_c = round2R 20 ∧
      rec.humidity_percent = round1R 65 ∧
      rec.apparent_temperature = calculate_apparent_temperature 20 65 ∧
      rec.heat_index =
        round2R ((calculate_heat_index (20 * 9 / 5 + 32) 65 - 32) * 5 / 9) ∧
      rec.wet_bulb_temperature = calculate_wet_bulb_temperature 20 65 ∧
      rec.utci_approximation = calculate_utci_approximation 20 65 ∧
      process_temperature_data (fun _ => none) [[("date", "x")]] = [rec] :=
  (default_temperature_row_not_skipped (fun _ => none) [("date", "x")] rfl rfl).1 65 rfl

/-- C10: below the Heat Index domain the emitted Celsius heat index equals
the emitted Celsius temperature: Celsius→Fahrenheit conversion, the
pass-through, and Fahrenheit→Celsius conversion compose to the identity
(exact arithmetic, identical 2-decimal rounding on both fields). -/
theorem heat_index_roundtrip_in_celsius (parse : String → Option ℝ)
    (row : List (String × String)) (t rh : ℝ)
    (h : t * 9 / 5 + 32 < 80 ∨ rh < 40) :
    round2R ((calculate_heat_index (t * 9 / 5 + 32) rh - 32) * 5 / 9) = round2R t ∧
    (tempVal parse row = some t → humVal parse row = some rh →
      ∃ rec, process_row parse row = some rec ∧
        rec.heat_index = rec.temperature_c) := by
  have key : round2R ((calculate_heat_index (t * 9 / 5 + 32) rh - 32) * 5 / 9) =
      round2R t := by
    rw [heat_index_low _ _ h]; congr 1; ring
  refine ⟨key, fun ht hh => ?_⟩
  refine ⟨{
      date := (rowGet row "date").getD "",
      temperature_c := round2R t,
      humidity_percent := round1R rh,
      apparent_temperature := calculate_apparent_temperature t rh,
      heat_index := round2R ((calculate_heat_index (t * 9 / 5 + 32) rh - 32) * 5 / 9),
      wet_bulb_temperature := calculate_wet_bulb_temperature t rh,
      utci_approximation := calculate_utci_approximation t rh }, ?_, key⟩
  unfold process_row; rw [ht, hh]

theorem heat_index_roundtrip_in_celsius_check :
    ∃ rec, process_row (fun _ => none) [("date", "x")] = some rec ∧
      rec.heat_index = rec.temperature_c :=
  (heat_index_roundtrip_in_celsius (fun _ => none) [("date", "x")] 20 65
    (Or.inl (by norm_num))).2 rfl rfl

/-- C2: the aggregator's bucket key per granularity — hourly is the full
rendering of the timestamp truncated to the hour, daily the calendar-day
rendering, monthly the first day of the month, yearly the first day of
the year, all from the timestamp's own (naive, unconverted) fields; any
unrecognized granularity uses the daily derivation. -/
theorem bucket_key_by_granularity (d : DateTime) (g : String)
    (hg : g ∉ ["hourly", "daily", "monthly", "yearly"]) :
    strftimeKey "hourly" d = renderFull { d with minute := 0, second := 0 } ∧
    strftimeKey "daily" d = renderDate d ∧
    strftimeKey "monthly" d = renderDate { d with day := 1 } ∧
    strftimeKey "yearly" d = renderDate { d with month := 1, day := 1 } ∧
    strftimeKey g d = strftimeKey "daily" d := by
  simp only [List.mem_cons, List.mem_singleton, not_or] at hg
  obtain ⟨hg1, hg2, hg3, hg4, -⟩ := hg
  have h00 : padZero 2 0 = "00" := rfl
  have h01 : padZero 2 1 = "01" := rfl
  refine ⟨?_, ?_, ?_, ?_, ?_⟩
  · show _ = renderFull _
    unfold strftimeKey renderFull renderDate
    rw [if_pos rfl]
    simp only [h00, String.append_assoc]
    rfl
  · unfold strftimeKey renderDate
    rw [if_neg (by decide), if_pos rfl]
  · unfold strftimeKey renderDate
    rw [if_neg (by decide), if_neg (by decide), if_pos rfl]
    simp only [h01, String.append_assoc]
    rfl
  · unfold strftimeKey renderDate
    rw [if_neg (by decide), if_neg (by decide), if_neg (by decide), if_pos rfl]
    simp only [h01, String.append_assoc]
    rfl
  · unfold strftimeKey
    rw [if_neg hg1, if_neg hg2, if_neg hg3, if_neg hg4, if_neg (by decide),
      if_pos rfl]

theorem bucket_key_by_granularity_check :
    strftimeKey "hourly" ⟨2023, 7, 1, 5, 30, 45⟩ =
      renderFull ⟨2023, 7, 1, 5, 0, 0⟩ ∧
    strftimeKey "daily" ⟨2023, 7, 1, 5, 30, 45⟩ = renderDate ⟨2023, 7, 1, 5, 30, 45⟩ ∧
    strftimeKey "monthly" ⟨2023, 7, 1, 5, 30, 45⟩ = renderDate ⟨2023, 7, 1, 5, 30, 45⟩ ∧
    strftimeKey "yearly" ⟨2023, 7, 1, 5, 30, 45⟩ = renderDate ⟨2023, 1, 1, 5, 30, 45⟩ ∧
    strftimeKey "weekly" ⟨2023, 7, 1, 5, 30, 45⟩ =
      strftimeKey "daily" ⟨2023, 7, 1, 5, 30, 45⟩ :=
  bucket_key_by_granularity ⟨2023, 7, 1, 5, 30, 45⟩ "weekly" (by decide)

theorem findBucket_bucketInsert (acc : List (String × List ℚ × String))
    (k : String) (v : ℚ) (idx : String) (q : String) :
    findBucket (bucketInsert acc k v idx) q =
      if q = k then
        match findBucket acc k with
        | some (vs, j) => some (vs ++ [v], j)
        | none => some ([v], idx)
      else findBucket acc q := by
  induction acc with
  | nil =>
    rcases eq_or_ne q k with h | h
    · subst h; simp [bucketInsert, findBucket]
    · simp [bucketInsert, findBucket, h, h.symm]
  | cons hd tl ih =>
    obtain ⟨k', vs, i'⟩ := hd
    by_cases hk : k' = k
    · subst hk
      rcases eq_or_ne q k' with hq | hq
      · subst hq; simp [bucketInsert, findBucket]
      · simp [bucketInsert, findBucket, hq, hq.symm]
    · rcases eq_or_ne q k' with hq | hq
      · subst hq
        simp [bucketInsert, findBucket, hk, Ne.symm hk]
      · simp [bucketInsert, findBucket, hk, Ne.symm hq, ih]

theorem keys_bucketInsert (acc : List (String × List ℚ × String))
    (k : String) (v : ℚ) (idx : String) :
    (bucketInsert acc k v idx).map (fun e => e.1) =
      if k ∈ acc.map (fun e => e.1) then acc.map (fun e => e.1)
      else acc.map (fun e => e.1) ++ [k] := by
  induction acc with
  | nil => simp [bucketInsert]
  | cons hd tl ih =>
    obtain ⟨k', vs, i'⟩ := hd
    by_cases hk : k' = k
    · subst hk; simp [bucketInsert]
    · have h1 : bucketInsert ((k', vs, i') :: tl) k v idx =
          (k', vs, i') :: bucketInsert tl k v idx := by
        simp [bucketInsert, hk]
      have hmem : k ∈ (((k', vs, i') :: tl).map (fun e => e.1)) ↔
          k ∈ tl.map (fun e => e.1) := by
        simp [Ne.symm hk]
      rw [h1]
      by_cases h2 : k ∈ tl.map (fun e => e.1)
      · rw [if_pos (hmem.mpr h2)]
        simp only [List.map_cons]
        rw [ih, if_pos h2]
      · rw [if_neg (fun hc => h2 (hmem.mp hc))]
        simp only [List.map_cons]
        rw [ih, if_neg h2, List.cons_append]

theorem nodup_keys_bucketInsert (acc : List (String × List ℚ × String))
    (k : String) (v : ℚ) (idx : String)
    (h : (acc.map (fun e => e.1)).Nodup) :
    ((bucketInsert acc k v idx).map (fun e => e.1)).Nodup := by
  rw [keys_bucketInsert]
  split
  · exact h
  · rename_i hmem
    simp [List.nodup_append, h, hmem]

theorem findBucket_foldl (agg : String) (rows : List AggRec)
    (acc : List (String × List ℚ × String)) (k : String) :
    findBucket (rows.foldl (fun a r =>
        bucketInsert a (strftimeKey agg r.date) r.value r.index) acc) k =
      match findBucket acc k, rows.filter (fun r => strftimeKey agg r.date == k) with
      | some (vs, j), rs => some (vs ++ rs.map (fun r => r.value), j)
      | none, [] => none
      | none, r :: rs => some (r.value :: rs.map (fun r => r.value), r.index) := by
  induction rows generalizing acc with
  | nil =>
    cases hfb : findBucket acc k with
    | none => simp [hfb]
    | some p => obtain ⟨vs, j⟩ := p; simp [hfb]
  | cons r rest ih =>
    simp only [List.foldl_cons, List.filter_cons]
    by_cases hk : strftimeKey agg r.date = k
    · rw [ih, findBucket_bucketInsert, hk]
      cases hfb : findBucket acc k with
      | none => simp [hfb]
      | some p => obtain ⟨vs, j⟩ := p; simp [hfb, List.append_assoc]
    · have hkb : (strftimeKey agg r.date == k) = false := by
        simp [hk]
      rw [ih, findBucket_bucketInsert, if_neg (fun hc => hk hc.symm), hkb]
      simp

theorem findBucket_eq_none (l : List (String × List ℚ × String)) (k : String) :
    findBucket l k = none ↔ k ∉ l.map (fun e => e.1) := by
  induction l with
  | nil => simp [findBucket]
  | cons hd tl ih =>
    obtain ⟨k', vs, i⟩ := hd
    by_cases h : k' = k
    · subst h; simp [findBucket]
    · simp [findBucket, h, Ne.symm h, ih]

theorem findBucket_of_mem (l : List (String × List ℚ × String))
    (hl : (l.map (fun e => e.1)).Nodup) :
    ∀ b ∈ l, findBucket l b.1 = some b.2 := by
  induction l with
  | nil => intro b hb; cases hb
  | cons hd tl ih =>
    obtain ⟨k', vs, i⟩ := hd
    intro b hb
    rcases List.mem_cons.mp hb with hb1 | hb2
    · subst hb1; simp [findBucket]
    · have hl' : (k' :: tl.map (fun e => e.1)).Nodup := by
        simpa only [List.map_cons] using hl
      have hne : k' ≠ b.1 := by
        intro he
        exact (List.nodup_cons.mp hl').1 (he ▸ List.mem_map.mpr ⟨b, hb2, rfl⟩)
      have htl : (tl.map (fun e => e.1)).Nodup := (List.nodup_cons.mp hl').2
      simp [findBucket, hne]
      exact ih htl b hb2

theorem foldl_keys_nodup (agg : String) (rows : List AggRec) :
    ∀ acc : List (String × List ℚ × String), (acc.map (fun e => e.1)).Nodup →
    (((rows.foldl (fun a r =>
        bucketInsert a (strftimeKey agg r.date) r.value r.index) acc)).map
      (fun e => e.1)).Nodup := by
  induction rows with
  | nil => intro acc h; exact h
  | cons r rest ih =>
    intro acc h
    exact ih _ (nodup_keys_bucketInsert _ _ _ _ h)

theorem groupRows_keys_nodup (agg : String) (rows : List AggRec) :
    ((groupRows agg rows).map (fun e => e.1)).Nodup :=
  foldl_keys_nodup agg rows [] (by simp)

theorem bucketInsert_notmem (acc : List (String × List ℚ × String))
    (k : String) (v : ℚ) (idx : String) (h : k ∉ acc.map (fun e => e.1)) :
    bucketInsert acc k v idx = acc ++ [(k, [v], idx)] := by
  induction acc with
  | nil => rfl
  | cons hd tl ih =>
    obtain ⟨k', vs, i⟩ := hd
    have h1 : k' ≠ k := by
      intro he; exact h (by simp [he])
    have h2 : k ∉ tl.map (fun e => e.1) := fun hc => h (by simp [hc])
    simp [bucketInsert, h1, ih h2]

theorem foldl_bucketInsert_of_nodup (agg : String) (rows : List AggRec) :
    ∀ acc : List (String × List ℚ × String),
    ((acc.map (fun e => e.1)) ++ rows.map (fun r => strftimeKey agg r.date)).Nodup →
    rows.foldl (fun a r =>
        bucketInsert a (strftimeKey agg r.date) r.value r.index) acc =
      acc ++ rows.map (fun r => (strftimeKey agg r.date, [r.value], r.index)) := by
  induction rows with
  | nil => intro acc _; simp
  | cons r rest ih =>
    intro acc h
    have hnm : strftimeKey agg r.date ∉ acc.map (fun e => e.1) := by
      intro hc
      rcases (List.nodup_append.mp h) with ⟨-, -, hdisj⟩
      exact hdisj hc (by simp)
    rw [List.foldl_cons, bucketInsert_notmem _ _ _ _ hnm]
    have h2 : (((acc ++ [(strftimeKey agg r.date, [r.value], r.index)]).map
          (fun e => e.1)) ++ rest.map (fun r => strftimeKey agg r.date)).Nodup := by
      simpa [List.append_assoc] using h
    rw [ih _ h2, List.append_assoc]
    rfl

theorem groupRows_of_nodup (agg : String) (rows : List AggRec)
    (h : (rows.map (fun r => strftimeKey agg r.date)).Nodup) :
    groupRows agg rows =
      rows.map (fun r => (strftimeKey agg r.date, [r.value], r.index)) := by
  unfold groupRows
  rw [foldl_bucketInsert_of_nodup agg rows [] (by simpa using h)]
  rfl

theorem insertByKey_perm (x : String × ℚ × String) (l : List (String × ℚ × String)) :
    (insertByKey x l).Perm (x :: l) := by
  induction l with
  | nil => exact List.Perm.refl _
  | cons y ys ih =>
    unfold insertByKey
    split
    · exact List.Perm.refl _
    · exact (List.Perm.cons y ih).trans (List.Perm.swap x y ys)

theorem sortByKey_perm (l : List (String × ℚ × String)) : (sortByKey l).Perm l := by
  induction l with
  | nil => exact List.Perm.refl _
  | cons x xs ih =>
    have h1 : sortByKey (x :: xs) = insertByKey x (sortByKey xs) := rfl
    rw [h1]
    exact (insertByKey_perm x (sortByKey xs)).trans (List.Perm.cons x ih)

theorem insertByKey_pairwise (x : String × ℚ × String)
    (l : List (String × ℚ × String))
    (h : l.Pairwise (fun a b => a.1 ≤ b.1)) :
    (insertByKey x l).Pairwise (fun a b => a.1 ≤ b.1) := by
  induction l with
  | nil => simp [insertByKey]
  | cons y ys ih =>
    unfold insertByKey
    split
    · rename_i hle
      refine List.Pairwise.cons ?_ h
      intro z hz
      rcases List.mem_cons.mp hz with hz1 | hz2
      · exact hz1 ▸ hle
      · exact le_trans hle ((List.pairwise_cons.mp h).1 z hz2)
    · rename_i hgt
      have hyx : x.1 ≤ y.1 ∨ y.1 ≤ x.1 := le_total _ _
      have hy : y.1 ≤ x.1 := by
        rcases hyx with h1 | h1
        · exact absurd h1 hgt
        · exact h1
      refine List.Pairwise.cons ?_ (ih (List.pairwise_cons.mp h).2)
      intro z hz
      have hz' := (insertByKey_perm x ys).mem_iff.mp hz
      rcases List.mem_cons.mp hz' with hz1 | hz2
      · exact hz1 ▸ hy
      · exact (List.pairwise_cons.mp h).1 z hz2

theorem sortByKey_pairwise (l : List (String × ℚ × String)) :
    (sortByKey l).Pairwise (fun a b => a.1 ≤ b.1) := by
  induction l with
  | nil => simp [sortByKey]
  | cons x xs ih => exact insertByKey_pairwise x (sortByKey xs) ih

theorem sortByKey_of_pairwise (l : List (String × ℚ × String))
    (h : l.Pairwise (fun a b => a.1 ≤ b.1)) : sortByKey l = l := by
  induction l with
  | nil => rfl
  | cons x xs ih =>
    have h1 : sortByKey (x :: xs) = insertByKey x (sortByKey xs) := rfl
    rw [h1, ih (List.pairwise_cons.mp h).2]
    cases xs with
    | nil => rfl
    | cons y ys =>
      have hxy : x.1 ≤ y.1 := (List.pairwise_cons.mp h).1 y (by simp)
      simp [insertByKey, hxy]

theorem findBucket_groupRows (agg : String) (rows : List AggRec) (k : String) :
    findBucket (groupRows agg rows) k =
      match rows.filter (fun r => strftimeKey agg r.date == k) with
      | [] => none
      | r :: rs => some (r.value :: rs.map (fun r => r.value), r.index) := by
  unfold groupRows
  rw [findBucket_foldl]
  have h0 : findBucket [] k = none := rfl
  rw [h0]
  cases rows.filter (fun r => strftimeKey agg r.date == k) <;> rfl

/-- C3 amended: the aggregator emits exactly one bucket per distinct
bucket key (not per `(bucket_key, index_name)` pair): bucket keys are
pairwise distinct and are exactly the keys occurring in the input; each
bucket holds the arithmetic mean of all values sharing its key —
regardless of their index names — and is labelled with the index name of
the first such value; the sample count participates only as the divisor
of the mean and is not emitted. -/
theorem aggregate_one_bucket_per_key (aggregation : String) (rows : List AggRec) :
    ((aggregate aggregation rows).map (fun b => b.1)).Nodup ∧
    (∀ k, k ∈ (aggregate aggregation rows).map (fun b => b.1) ↔
      k ∈ rows.map (fun r => strftimeKey aggregation r.date)) ∧
    ∀ b ∈ aggregate aggregation rows,
      ∃ r0 rs,
        rows.filter (fun r => strftimeKey aggregation r.date == b.1) = r0 :: rs ∧
        b.2.2 = r0.index ∧
        b.2.1 = bucketAvg ((r0 :: rs).map (fun r => r.value)) := by
  have hperm : (aggregate aggregation rows).Perm
      ((groupRows aggregation rows).map (fun e => (e.1, bucketAvg e.2.1, e.2.2))) :=
    sortByKey_perm _
  have hkeysMG : ((groupRows aggregation rows).map
        (fun e => (e.1, bucketAvg e.2.1, e.2.2))).map (fun b => b.1) =
      (groupRows aggregation rows).map (fun e => e.1) := by
    rw [List.map_map]; rfl
  have hkeysPerm : ((aggregate aggregation rows).map (fun b => b.1)).Perm
      ((groupRows aggregation rows).map (fun e => e.1)) := by
    rw [← hkeysMG]; exact hperm.map _
  refine ⟨?_, ?_, ?_⟩
  · exact hkeysPerm.nodup_iff.mpr (groupRows_keys_nodup aggregation rows)
  · intro k
    rw [hkeysPerm.mem_iff]
    have hfb := findBucket_groupRows aggregation rows k
    constructor
    · intro hk
      by_contra hnk
      have hfil : rows.filter (fun r => strftimeKey aggregation r.date == k) = [] := by
        cases hf : rows.filter (fun r => strftimeKey aggregation r.date == k) with
        | nil => rfl
        | cons r rs =>
          have hr : r ∈ rows.filter (fun r => strftimeKey aggregation r.date == k) :=
            hf ▸ List.mem_cons_self _ _
          have hr2 := List.mem_filter.mp hr
          exact absurd (List.mem_map.mpr ⟨r, hr2.1, by simpa using hr2.2⟩) hnk
      rw [hfil] at hfb
      simp only [] at hfb
      exact absurd hk ((findBucket_eq_none _ _).mp hfb)
    · intro hk
      obtain ⟨r, hr, hrk⟩ := List.mem_map.mp hk
      have hrfil : r ∈ rows.filter (fun r => strftimeKey aggregation r.date == k) :=
        List.mem_filter.mpr ⟨hr, by simpa using hrk⟩
      cases hf : rows.filter (fun r => strftimeKey aggregation r.date == k) with
      | nil => rw [hf] at hrfil; cases hrfil
      | cons r0 rs =>
        rw [hf] at hfb
        by_contra hnk
        rw [(findBucket_eq_none _ _).mpr hnk] at hfb
        cases hfb
  · intro b hb
    have hbM : b ∈ (groupRows aggregation rows).map
        (fun e => (e.1, bucketAvg e.2.1, e.2.2)) := hperm.mem_iff.mp hb
    obtain ⟨e, heG, heb⟩ := List.mem_map.mp hbM
    obtain ⟨k0, vs, j⟩ := e
    have hf := findBucket_of_mem (groupRows aggregation rows)
      (groupRows_keys_nodup aggregation rows) _ heG
    have hgb := findBucket_groupRows aggregation rows k0
    rw [hf] at hgb
    cases hfil : rows.filter (fun r => strftimeKey aggregation r.date == k0) with
    | nil => rw [hfil] at hgb; cases hgb
    | cons r0 rs =>
      rw [hfil] at hgb
      simp only [Option.some.injEq, Prod.mk.injEq] at hgb
      obtain ⟨hvs, hj⟩ := hgb
      subst heb
      refine ⟨r0, rs, hfil, hj, ?_⟩
      simp only [List.map_cons]
      rw [← hvs]

/-- C3 counterexample: two values sharing the daily bucket key but
carrying different index names `"a"` and `"b"` — two distinct
`(bucket_key, index_name)` pairs — produce a single bucket, whose mean
`3/2` mixes both index names' values and whose label is the first row's
index name. -/
theorem aggregate_one_bucket_per_key_cx :
    aggregate "daily"
        [⟨⟨2023, 7, 1, 5, 0, 0⟩, 1, "a"⟩, ⟨⟨2023, 7, 1, 15, 0, 0⟩, 2, "b"⟩] =
      [("2023-07-01", 3 / 2, "a")] ∧
    (aggregate "daily"
        [⟨⟨2023, 7, 1, 5, 0, 0⟩, 1, "a"⟩, ⟨⟨2023, 7, 1, 15, 0, 0⟩, 2, "b"⟩]).length = 1 ∧
    (([⟨⟨2023, 7, 1, 5, 0, 0⟩, (1 : ℚ), "a"⟩, ⟨⟨2023, 7, 1, 15, 0, 0⟩, 2, "b"⟩] :
        List AggRec).map
      (fun r => (strftimeKey "daily" r.date, r.index))).dedup.length = 2 := by
  have hk1 : strftimeKey "daily" (⟨2023, 7, 1, 5, 0, 0⟩ : DateTime) = "2023-07-01" := by
    decide
  have hk2 : strftimeKey "daily" (⟨2023, 7, 1, 15, 0, 0⟩ : DateTime) = "2023-07-01" := by
    decide
  have h1 : aggregate "daily"
      [⟨⟨2023, 7, 1, 5, 0, 0⟩, 1, "a"⟩, ⟨⟨2023, 7, 1, 15, 0, 0⟩, 2, "b"⟩] =
      [("2023-07-01", 3 / 2, "a")] := by
    simp [aggregate, groupRows, sortByKey, insertByKey, bucketAvg, bucketInsert, hk1, hk2]
    norm_num
  refine ⟨h1, by rw [h1]; rfl, ?_⟩
  simp [hk1, hk2, List.dedup_cons_of_not_mem]

theorem aggregate_one_bucket_per_key_check :
    ∃ r0 rs,
      ([⟨⟨2023, 7, 1, 5, 0, 0⟩, (1 : ℚ), "a"⟩, ⟨⟨2023, 7, 1, 15, 0, 0⟩, 2, "b"⟩] :
          List AggRec).filter
        (fun r => strftimeKey "daily" r.date == ("2023-07-01", (3 : ℚ) / 2, "a").1) =
        r0 :: rs ∧
      ("2023-07-01", (3 : ℚ) / 2, "a").2.2 = r0.index ∧
      ("2023-07-01", (3 : ℚ) / 2, "a").2.1 = bucketAvg ((r0 :: rs).map (fun r => r.value)) := by
  have h1 : aggregate "daily"
      [⟨⟨2023, 7, 1, 5, 0, 0⟩, 1, "a"⟩, ⟨⟨2023, 7, 1, 15, 0, 0⟩, 2, "b"⟩] =
      [("2023-07-01", 3 / 2, "a")] := by
    have hk1 : strftimeKey "daily" (⟨2023, 7, 1, 5, 0, 0⟩ : DateTime) = "2023-07-01" := by
      decide
    have hk2 : strftimeKey "daily" (⟨2023, 7, 1, 15, 0, 0⟩ : DateTime) = "2023-07-01" := by
      decide
    simp [aggregate, groupRows, sortByKey, insertByKey, bucketAvg, bucketInsert, hk1, hk2]
    norm_num
  exact (aggregate_one_bucket_per_key "daily"
      [⟨⟨2023, 7, 1, 5, 0, 0⟩, 1, "a"⟩, ⟨⟨2023, 7, 1, 15, 0, 0⟩, 2, "b"⟩]).2.2
    ("2023-07-01", 3 / 2, "a") (h1 ▸ List.mem_singleton.mpr rfl)

theorem aggregate_keys_nodup (agg : String) (rows : List AggRec) :
    ((aggregate agg rows).map (fun b => b.1)).Nodup := by
  have hkeysPerm : ((aggregate agg rows).map (fun b => b.1)).Perm
      ((groupRows agg rows).map (fun e => e.1)) := by
    simpa [List.map_map] using (sortByKey_perm
      ((groupRows agg rows).map (fun e => (e.1, bucketAvg e.2.1, e.2.2)))).map
      (fun b => b.1)
  exact hkeysPerm.nodup_iff.mpr (groupRows_keys_nodup agg rows)

theorem aggregate_sorted (agg : String) (rows : List AggRec) :
    (aggregate agg rows).Pairwise (fun a b => a.1 ≤ b.1) := by
  unfold aggregate
  exact sortByKey_pairwise _

/-- C4 counterexample: a daily aggregation of a well-formed input yields
the bucket row `("2023-07-01", 30, "utci")`; feeding that output row back
through `aggregate_data` at daily granularity does not reproduce it — the
reader's `'%Y-%m-%d %H:%M:%S'` date format rejects the time-less daily
key `"2023-07-01"`, so the re-aggregation raises instead of producing
buckets. -/
theorem daily_reaggregation_parse_failure_cx :
    aggregate_data "daily" [("2023-07-01 05:00:00", "30", "utci")] =
      some [("2023-07-01", 30, "utci")] ∧
    aggregate_data "daily" [("2023-07-01", "30.0", "utci")] = none := by
  constructor
  · have hm : ([("2023-07-01 05:00:00", "30", "utci")].mapM
        (fun (r : String × String × String) => do
          let d ← strptimeFull r.1
          let v ← parseDecimal r.2.1
          pure (⟨d, v, r.2.2⟩ : AggRec))) =
        some [⟨⟨2023, 7, 1, 5, 0, 0⟩, ((30 : ℕ) : ℚ), "utci"⟩] := rfl
    unfold aggregate_data
    rw [hm, Option.map_some']
    have hk : strftimeKey "daily" (⟨2023, 7, 1, 5, 0, 0⟩ : DateTime) = "2023-07-01" := by
      decide
    simp [aggregate, groupRows, sortByKey, insertByKey, bucketAvg, bucketInsert, hk]
  · decide

/-- C4 amended: re-aggregating the daily output *as data* is the
identity: re-materialize each emitted bucket row at any timestamp whose
daily key renders back to the bucket key (such as midnight of the bucket
day) and aggregate daily again — the bucket keys, means and index names
are reproduced exactly. The literal round trip through `aggregate_data`
is impossible, since the daily keys fail the reader's date format (see
the counterexample). -/
theorem daily_aggregation_idempotent_on_buckets (rows : List AggRec)
    (remat : String → DateTime)
    (h : ∀ k ∈ (aggregate "daily" rows).map (fun b => b.1),
      strftimeKey "daily" (remat k) = k) :
    aggregate "daily" ((aggregate "daily" rows).map
      (fun b => (⟨remat b.1, b.2.1, b.2.2⟩ : AggRec))) = aggregate "daily" rows := by
  have hkeys : ((aggregate "daily" rows).map
        (fun b => (⟨remat b.1, b.2.1, b.2.2⟩ : AggRec))).map
      (fun r => strftimeKey "daily" r.date) =
      (aggregate "daily" rows).map (fun b => b.1) := by
    rw [List.map_map]
    exact List.map_congr_left
      (fun b hb => h b.1 (List.mem_map.mpr ⟨b, hb, rfl⟩))
  have hnodup' : (((aggregate "daily" rows).map
        (fun b => (⟨remat b.1, b.2.1, b.2.2⟩ : AggRec))).map
      (fun r => strftimeKey "daily" r.date)).Nodup := by
    rw [hkeys]; exact aggregate_keys_nodup "daily" rows
  have e1 : (((aggregate "daily" rows).map
        (fun b => (⟨remat b.1, b.2.1, b.2.2⟩ : AggRec))).map
      (fun r : AggRec => (strftimeKey "daily" r.date, [r.value], r.index))).map
      (fun e => (e.1, bucketAvg e.2.1, e.2.2)) = aggregate "daily" rows := by
    rw [List.map_map, List.map_map]
    have hid : ∀ b ∈ aggregate "daily" rows,
        (((fun e => (e.1, bucketAvg e.2.1, e.2.2)) ∘
          (fun r : AggRec => (strftimeKey "daily" r.date, [r.value], r.index))) ∘
          (fun b => (⟨remat b.1, b.2.1, b.2.2⟩ : AggRec))) b = id b := by
      intro b hb
      have hk := h b.1 (List.mem_map.mpr ⟨b, hb, rfl⟩)
      have hv : bucketAvg [b.2.1] = b.2.1 := by simp [bucketAvg]
      simp only [Function.comp_apply, id_eq, hk, hv]
    rw [List.map_congr_left hid, List.map_id]
  calc aggregate "daily" ((aggregate "daily" rows).map
        (fun b => (⟨remat b.1, b.2.1, b.2.2⟩ : AggRec)))
      = sortByKey ((groupRows "daily" ((aggregate "daily" rows).map
          (fun b => (⟨remat b.1, b.2.1, b.2.2⟩ : AggRec)))).map
          (fun e => (e.1, bucketAvg e.2.1, e.2.2))) := rfl
    _ = aggregate "daily" rows := by
        rw [groupRows_of_nodup _ _ hnodup', e1,
          sortByKey_of_pairwise _ (aggregate_sorted "daily" rows)]

theorem daily_aggregation_idempotent_on_buckets_check :
    aggregate "daily" ((aggregate "daily"
        [⟨⟨2023, 7, 1, 5, 0, 0⟩, (30 : ℚ), "utci"⟩]).map
      (fun b => (⟨(fun _ => (⟨2023, 7, 1, 0, 0, 0⟩ : DateTime)) b.1, b.2.1, b.2.2⟩ : AggRec))) =
      aggregate "daily" [⟨⟨2023, 7, 1, 5, 0, 0⟩, (30 : ℚ), "utci"⟩] :=
  daily_aggregation_idempotent_on_buckets
    [⟨⟨2023, 7, 1, 5, 0, 0⟩, (30 : ℚ), "utci"⟩]
    (fun _ => (⟨2023, 7, 1, 0, 0, 0⟩ : DateTime)) (by
      intro k hk
      have h1 : aggregate "daily" [⟨⟨2023, 7, 1, 5, 0, 0⟩, (30 : ℚ), "utci"⟩] =
          [("2023-07-01", 30, "utci")] := by
        have hkd : strftimeKey "daily" (⟨2023, 7, 1, 5, 0, 0⟩ : DateTime) =
            "2023-07-01" := by decide
        simp [aggregate, groupRows, sortByKey, insertByKey, bucketAvg, bucketInsert, hkd]
      rw [h1] at hk
      simp only [List.map_cons, List.map_nil, List.mem_singleton] at hk
      subst hk
      decide)

/-- C7: the reader tries utf-8, then latin-1, then cp1252, in that fixed
order, returns the first clean decode, and when all three fail it signals
a decode error (the last one) rather than returning data. -/
theorem encoding_fallback_order {α ε : Type} (attempt : String → Except ε α)
    (attemptDefault : Unit → Except ε α) :
    (∀ v, attempt "utf-8" = .ok v →
      read_csv_with_fallbacks attempt attemptDefault = .ok v) ∧
    (∀ e1 v, attempt "utf-8" = .error e1 → attempt "latin-1" = .ok v →
      read_csv_with_fallbacks attempt attemptDefault = .ok v) ∧
    (∀ e1 e2 v, attempt "utf-8" = .error e1 → attempt "latin-1" = .error e2 →
      attempt "cp1252" = .ok v →
      read_csv_with_fallbacks attempt attemptDefault = .ok v) ∧
    (∀ e1 e2 e3, attempt "utf-8" = .error e1 → attempt "latin-1" = .error e2 →
      attempt "cp1252" = .error e3 →
      read_csv_with_fallbacks attempt attemptDefault = .error e3) := by
  refine ⟨fun v h1 => ?_, fun e1 v h1 h2 => ?_, fun e1 e2 v h1 h2 h3 => ?_,
    fun e1 e2 e3 h1 h2 h3 => ?_⟩
  · simp [read_csv_with_fallbacks, PREFERRED_ENCODINGS, tryEncodings, h1]
  · simp [read_csv_with_fallbacks, PREFERRED_ENCODINGS, tryEncodings, h1, h2]
  · simp [read_csv_with_fallbacks, PREFERRED_ENCODINGS, tryEncodings, h1, h2, h3]
  · simp [read_csv_with_fallbacks, PREFERRED_ENCODINGS, tryEncodings, h1, h2, h3]

theorem encoding_fallback_order_check :
    read_csv_with_fallbacks
      (fun enc => if enc == "utf-8" then Except.error 0
        else if enc == "latin-1" then Except.error 1 else Except.ok 42)
      (fun _ => Except.error 9) = Except.ok 42 :=
  (encoding_fallback_order
    (fun enc => if enc == "utf-8" then Except.error 0
      else if enc == "latin-1" then Except.error 1 else Except.ok 42)
    (fun _ => Except.error 9)).2.2.1 0 1 42 rfl rfl rfl

/-- C8: on a comma-decimal column the comma→dot replacement happens
before numeric coercion cell by cell, so `"12,5"` becomes the number
`12.5`, while the literal `"nan"` and the empty string become missing. -/
theorem decimal_comma_normalization (toNum : String → Option ℚ) (col : List String) :
    normalize_decimal_commas toNum col = col.map (normalize_cell toNum) ∧
    normalize_cell parseDecimal "12,5" = some (25 / 2 : ℚ) ∧
    normalize_cell parseDecimal "nan" = none ∧
    normalize_cell parseDecimal "" = none ∧
    normalize_decimal_commas parseDecimal ["12,5", "nan", ""] =
      [some (25 / 2 : ℚ), none, none] := by
  have hmap : ∀ (tn : String → Option ℚ) (c : List String),
      normalize_decimal_commas tn c = c.map (normalize_cell tn) := by
    intro tn c
    unfold normalize_decimal_commas normalize_cell
    rw [List.map_map, List.map_map]
    apply List.map_congr_left
    intro s _
    by_cases h : replaceCommas s = "nan" ∨ replaceCommas s = ""
    · simp [h]
    · simp [h]
  have h1 : normalize_cell parseDecimal "12,5" = some (25 / 2 : ℚ) := by
    unfold normalize_cell
    rw [show replaceCommas "12,5" = "12.5" from rfl, if_neg (by decide)]
    rw [show parseDecimal "12.5" =
      some (((12 : ℕ) : ℚ) + ((5 : ℕ) : ℚ) / ((10 : ℚ) ^ (1 : ℕ))) from rfl]
    norm_num
  have h2 : normalize_cell parseDecimal "nan" = none := by decide
  have h3 : normalize_cell parseDecimal "" = none := by decide
  refine ⟨hmap toNum col, h1, h2, h3, ?_⟩
  rw [hmap]
  simp only [List.map_cons, List.map_nil, h1, h2, h3]

theorem arctan_le_self (x : ℝ) (hx : 0 ≤ x) : Real.arctan x ≤ x := by
  rcases eq_or_lt_of_le hx with h | h
  · rw [← h]; simp
  · have h1 : Real.arctan x < Real.pi / 2 := Real.arctan_lt_pi_div_two x
    have h0 : 0 < Real.arctan x := by
      rw [← Real.arctan_zero]
      exact Real.arctan_strictMono h
    have h2 := Real.lt_tan h0 h1
    rw [Real.tan_arctan] at h2
    exact h2.le

theorem arctan_nonneg (x : ℝ) (hx : 0 ≤ x) : 0 ≤ Real.arctan x := by
  rw [← Real.arctan_zero]
  exact Real.arctan_strictMono.monotone hx

theorem le_arctan_of_div (y a : ℝ) (h0 : 0 < y) (h1 : y ≤ 1)
    (h2 : y / (1 - y ^ 2 / 2) ≤ a) : y ≤ Real.arctan a := by
  have hpi : (3.141592 : ℝ) < Real.pi := Real.pi_gt_d6
  have hylt : y < Real.pi / 2 := by linarith
  have hcos : 1 - y ^ 2 / 2 ≤ Real.cos y := Real.one_sub_sq_div_two_le_cos
  have hcpos : 0 < 1 - y ^ 2 / 2 := by nlinarith
  have hsin : Real.sin y ≤ y := (Real.sin_lt h0).le
  have htan : Real.tan y ≤ y / (1 - y ^ 2 / 2) := by
    rw [Real.tan_eq_sin_div_cos]
    exact div_le_div₀ h0.le hsin hcpos hcos
  have hta : Real.tan y ≤ a := le_trans htan h2
  have harc : Real.arctan (Real.tan y) = y := Real.arctan_tan (by linarith) hylt
  calc y = Real.arctan (Real.tan y) := harc.symm
    _ ≤ Real.arctan a := Real.arctan_strictMono.monotone hta

theorem arctan_double_ge {a c : ℝ} (ha0 : 0 ≤ a) (ha1 : a < 1)
    (hc : 2 * a / (1 - a ^ 2) ≤ c) : 2 * Real.arctan a ≤ Real.arctan c := by
  have hmul : a * a < 1 := by nlinarith
  have hadd := Real.arctan_add hmul
  have h2 : 2 * Real.arctan a = Real.arctan ((a + a) / (1 - a * a)) := by
    rw [← hadd]; ring
  rw [h2]
  apply Real.arctan_strictMono.monotone
  calc (a + a) / (1 - a * a) = 2 * a / (1 - a ^ 2) := by ring_nf
    _ ≤ c := hc

/-- C6 counterexample: at the admissible point `T = 100 ≥ 0`,
`RH = 100 ≤ 100`, the Stull approximation exceeds the dry-bulb
temperature: `WetBulbTemperature(100, 100) > 100`, so
`WetBulbTemperature(T, RH) ≤ T` fails on the claimed domain. -/
theorem wet_bulb_exceeds_temperature_at_saturation :
    (0 : ℝ) ≤ 100 ∧ (100 : ℝ) ≤ 100 ∧
    100 < calculate_wet_bulb_temperature 100 100 := by
  refine ⟨by norm_num, le_refl _, ?_⟩
  have hdef : calculate_wet_bulb_temperature 100 100 =
      round2R (100 * Real.arctan (0.151977 * Real.sqrt (100 + 8.313659)) +
        Real.arctan (100 + 100) - Real.arctan (100 - 1.676331) +
        0.00391838 * (100 : ℝ) ^ (1.5 : ℝ) * Real.arctan (0.023101 * 100) -
        4.686035) := rfl
  have hrpow : (100 : ℝ) ^ (1.5 : ℝ) = 1000 := by
    rw [show (1.5 : ℝ) = 1 + 1 / 2 by norm_num,
      Real.rpow_add (by norm_num : (0 : ℝ) < 100), Real.rpow_one,
      ← Real.sqrt_eq_rpow,
      show (100 : ℝ) = (10 : ℝ) ^ 2 by norm_num,
      Real.sqrt_sq (by norm_num : (0 : ℝ) ≤ 10)]
    norm_num
  have hsq : (10.4073 : ℝ) ≤ Real.sqrt (100 + 8.313659) :=
    Real.le_sqrt_of_sq_le (by norm_num)
  have hs : (1.5816 : ℝ) ≤ 0.151977 * Real.sqrt (100 + 8.313659) := by
    nlinarith [hsq]
  have c1 : (0.1254 : ℝ) ≤ Real.arctan 0.1264 :=
    le_arctan_of_div 0.1254 0.1264 (by norm_num) (by norm_num) (by norm_num)
  have c2 : 2 * Real.arctan 0.1264 ≤ Real.arctan 0.257 :=
    arctan_double_ge (by norm_num) (by norm_num) (by norm_num)
  have c3 : 2 * Real.arctan 0.257 ≤ Real.arctan 0.5504 :=
    arctan_double_ge (by norm_num) (by norm_num) (by norm_num)
  have c4 : 2 * Real.arctan 0.5504 ≤ Real.arctan 1.5816 :=
    arctan_double_ge (by norm_num) (by norm_num) (by norm_num)
  have hA : (1.0032 : ℝ) ≤ Real.arctan (0.151977 * Real.sqrt (100 + 8.313659)) := by
    have h1 : (1.0032 : ℝ) ≤ Real.arctan 1.5816 := by linarith
    exact h1.trans (Real.arctan_strictMono.monotone hs)
  have hmid : Real.arctan ((100 : ℝ) - 1.676331) ≤ Real.arctan ((100 : ℝ) + 100) :=
    Real.arctan_strictMono.monotone (by norm_num)
  have d1 : (0.14375 : ℝ) ≤ Real.arctan 0.1453 :=
    le_arctan_of_div 0.14375 0.1453 (by norm_num) (by norm_num) (by norm_num)
  have d2 : 2 * Real.arctan 0.1453 ≤ Real.arctan 0.2969 :=
    arctan_double_ge (by norm_num) (by norm_num) (by norm_num)
  have d3 : 2 * Real.arctan 0.2969 ≤ Real.arctan 0.6513 :=
    arctan_double_ge (by norm_num) (by norm_num) (by norm_num)
  have d4 : 2 * Real.arctan 0.6513 ≤ Real.arctan 2.2623 :=
    arctan_double_ge (by norm_num) (by norm_num) (by norm_num)
  have hC : (1.15 : ℝ) ≤ Real.arctan ((0.023101 : ℝ) * 100) := by
    have h1 : (1.15 : ℝ) ≤ Real.arctan 2.2623 := by linarith
    exact h1.trans (Real.arctan_strictMono.monotone (by norm_num))
  have hraw : (100.140102 : ℝ) ≤
      100 * Real.arctan (0.151977 * Real.sqrt (100 + 8.313659)) +
        Real.arctan (100 + 100) - Real.arctan (100 - 1.676331) +
        0.00391838 * (100 : ℝ) ^ (1.5 : ℝ) * Real.arctan (0.023101 * 100) -
        4.686035 := by
    rw [hrpow]
    linarith [hA, hmid, hC]
  rw [hdef]
  have hb := (round2R_bounds (100 * Real.arctan (0.151977 * Real.sqrt (100 + 8.313659)) +
    Real.arctan (100 + 100) - Real.arctan (100 - 1.676331) +
    0.00391838 * (100 : ℝ) ^ (1.5 : ℝ) * Real.arctan (0.023101 * 100) -
    4.686035)).1
  linarith

/-- C6 amended: the instance the spec names does hold —
`WetBulbTemperature(30, 50) < 30` — but the universal inequality
`WetBulbTemperature(T, RH) ≤ T` on `T ≥ 0`, `RH ≤ 100` is false: at
saturation (`RH = 100`) the Stull approximation can exceed the dry-bulb
temperature (see the counterexample at `T = RH = 100`). -/
theorem wet_bulb_instance_below_temperature :
    calculate_wet_bulb_temperature 30 50 < 30 := by
  have hdef : calculate_wet_bulb_temperature 30 50 =
      round2R (30 * Real.arctan (0.151977 * Real.sqrt (50 + 8.313659)) +
        Real.arctan (30 + 50) - Real.arctan (50 - 1.676331) +
        0.00391838 * (50 : ℝ) ^ (1.5 : ℝ) * Real.arctan (0.023101 * 50) -
        4.686035) := rfl
  have hpi2 : Real.pi < 3.141593 := Real.pi_lt_d6
  have hr50 : (50 : ℝ) ^ (1.5 : ℝ) = 50 * Real.sqrt 50 := by
    rw [show (1.5 : ℝ) = 1 + 1 / 2 by norm_num,
      Real.rpow_add (by norm_num : (0 : ℝ) < 50), Real.rpow_one,
      ← Real.sqrt_eq_rpow]
  have hsq : Real.sqrt ((50 : ℝ) + 8.313659) ≤ 7.63635 := by
    rw [show (7.63635 : ℝ) = Real.sqrt (7.63635 ^ 2) from
      (Real.sqrt_sq (by norm_num)).symm]
    exact Real.sqrt_le_sqrt (by norm_num)
  have hs : (0.151977 : ℝ) * Real.sqrt (50 + 8.313659) ≤ 1.16055 := by
    have h0 : (0 : ℝ) ≤ Real.sqrt ((50 : ℝ) + 8.313659) := Real.sqrt_nonneg _
    nlinarith [hsq]
  have u1 : (0.175 : ℝ) ≤ Real.arctan 0.1778 :=
    le_arctan_of_div 0.175 0.1778 (by norm_num) (by norm_num) (by norm_num)
  have u2 : 2 * Real.arctan 0.1778 ≤ Real.arctan 0.3673 :=
    arctan_double_ge (by norm_num) (by norm_num) (by norm_num)
  have u3 : 2 * Real.arctan 0.3673 ≤ Real.arctan 0.8492 :=
    arctan_double_ge (by norm_num) (by norm_num) (by norm_num)
  have hinv : (0.7 : ℝ) ≤ Real.arctan ((1.16055 : ℝ)⁻¹) := by
    have h1 : (0.7 : ℝ) ≤ Real.arctan 0.8492 := by linarith
    refine h1.trans (Real.arctan_strictMono.monotone ?_)
    rw [le_inv_comm₀] <;> norm_num
  have hA : Real.arctan (0.151977 * Real.sqrt (50 + 8.313659)) ≤ 0.8707965 := by
    have h0 : Real.arctan (0.151977 * Real.sqrt (50 + 8.313659)) ≤
        Real.arctan 1.16055 := Real.arctan_strictMono.monotone hs
    have h1 := Real.arctan_inv_of_pos (show (0 : ℝ) < 1.16055 by norm_num)
    rw [h1] at hinv
    linarith
  have hmid : Real.arctan ((30 : ℝ) + 50) - Real.arctan ((50 : ℝ) - 1.676331) ≤
      0.0207 := by
    have hm1 : Real.arctan ((30 : ℝ) + 50) < Real.pi / 2 :=
      Real.arctan_lt_pi_div_two _
    have hm2 := Real.arctan_inv_of_pos (show (0 : ℝ) < 48.323669 by norm_num)
    have hm3 : Real.arctan ((48.323669 : ℝ)⁻¹) ≤ (48.323669 : ℝ)⁻¹ :=
      arctan_le_self _ (by norm_num)
    have hm4 : ((48.323669 : ℝ))⁻¹ ≤ 0.0207 := by norm_num
    have he : (50 : ℝ) - 1.676331 = 48.323669 := by norm_num
    rw [he]
    linarith
  have ht1 : Real.arctan ((0.023101 : ℝ) * 50) ≤ 1.15505 := by
    have h1 := arctan_le_self ((0.023101 : ℝ) * 50) (by norm_num)
    linarith
  have hsq50 : Real.sqrt (50 : ℝ) ≤ 7.07107 := by
    rw [show (7.07107 : ℝ) = Real.sqrt (7.07107 ^ 2) from
      (Real.sqrt_sq (by norm_num)).symm]
    exact Real.sqrt_le_sqrt (by norm_num)
  have ht4 : 0.00391838 * (50 : ℝ) ^ (1.5 : ℝ) * Real.arctan (0.023101 * 50) ≤
      1.6002 := by
    rw [hr50]
    have h0 : (0 : ℝ) ≤ Real.arctan ((0.023101 : ℝ) * 50) :=
      arctan_nonneg _ (by norm_num)
    have hs0 : (0 : ℝ) ≤ Real.sqrt (50 : ℝ) := Real.sqrt_nonneg _
    nlinarith [mul_nonneg hs0 h0, hsq50, ht1,
      mul_nonneg (sub_nonneg.mpr hsq50) (sub_nonneg.mpr ht1)]
  have hraw : (30 * Real.arctan (0.151977 * Real.sqrt (50 + 8.313659)) +
      Real.arctan (30 + 50) - Real.arctan (50 - 1.676331) +
      0.00391838 * (50 : ℝ) ^ (1.5 : ℝ) * Real.arctan (0.023101 * 50) -
      4.686035) ≤ 23.06 := by
    linarith [hA, hmid, ht4]
  rw [hdef]
  have hb := (round2R_bounds (30 * Real.arctan (0.151977 * Real.sqrt (50 + 8.313659)) +
    Real.arctan (30 + 50) - Real.arctan (50 - 1.676331) +
    0.00391838 * (50 : ℝ) ^ (1.5 : ℝ) * Real.arctan (0.023101 * 50) -
    4.686035)).2
  linarith
